import Mathlib

/-!
# Verification of the notebook execution orchestrator

A shallow embedding of `NotebookExecutionService`
(`src/vs/workbench/contrib/notebook/browser/notebookExecutionServiceImpl.ts`).

The service coordinates execution of notebook code cells: it gates on
workspace trust, resolves a kernel (selected-or-suggested, then a unique
source action, then the interactive picker command), filters the requested
cells to the eligible subset, creates execution records, dispatches the
batch to the kernel, and reconciles records the kernel never confirmed.
It also forwards cancellation requests.

The external collaborators (trust gate, kernel registry, execution-state
registry, the kernel itself) are modelled by an environment `Env` that fixes
their responses at each interaction point of a single call.  Each entry
point is translated into a pure function from the environment and the
arguments to an outcome that carries the ordered trace of collaborator
interactions (`Event`), the execution records created during the call with
their final states, and whether the returned promise rejected.
-/

/-- Cell kinds, from `notebookCommon.ts` (`CellKind.Code` / `CellKind.Markup`). -/
inductive CellKind
  | Code
  | Markup
deriving DecidableEq, Repr

/-- The fields of `NotebookCellTextModel` read by the orchestrator:
`handle`, `uri`, `cellKind` and `language`. -/
structure NotebookCellTextModel where
  handle : Nat
  uri : String
  cellKind : CellKind
  language : String
deriving DecidableEq, Repr

/-- The fields of `INotebookKernel` read by the orchestrator:
`id` and `supportedLanguages`. -/
structure INotebookKernel where
  id : String
  supportedLanguages : List String
deriving DecidableEq, Repr

/-- The single field of `INotebookTextModel` read by the orchestrator. -/
structure INotebookTextModel where
  uri : String
deriving DecidableEq, Repr

/-- Modelled from the spec: the lifecycle states of an execution record
owned by the external `ExecutionStateRegistry`
(`Unconfirmed → Confirmed → Completed`, or `Unconfirmed → Completed`
directly when the orchestrator force-completes).  The source file only
reads `state === Unconfirmed` and calls `complete({})`; the flag on
`Completed` records whether completion happened with the empty result. -/
inductive NotebookCellExecutionState
  | Unconfirmed
  | Confirmed
  | Completed (withEmptyResult : Bool)
deriving DecidableEq, Repr

/-- An execution record as created by
`createCellExecution(kernelId, notebook.uri, cell.handle)`, together with
its (final) lifecycle state. -/
structure ICellExecution where
  kernelId : String
  notebookUri : String
  cellHandle : Nat
  state : NotebookCellExecutionState
deriving DecidableEq, Repr

/-- An opaque discovery source action (`getSourceActions()` result);
only the count matters to the orchestrator. -/
structure ISourceAction where
  name : String
deriving DecidableEq, Repr

/-- One collaborator interaction performed by the orchestrator, in program
order.  Query events record which collaborator was consulted; effect events
record the arguments the collaborator was invoked with. -/
inductive Event
  | requestWorkspaceTrust
  | getSelectedOrSuggestedKernel
  | getMatchingKernel
  | getSourceActions
  | runSourceAction
  | executeSelectKernelCommand
  | getCellExecution (cellUri : String)
  | selectKernelForNotebook (kernelId : String) (notebookUri : String)
  | createCellExecution (kernelId : String) (notebookUri : String) (handle : Nat)
  | executeNotebookCellsRequest (notebookUri : String) (handles : List Nat)
  | completeExecution (handle : Nat)
  | cancelNotebookCellExecution (notebookUri : String) (handles : List Nat)
deriving DecidableEq, Repr

/-- The behaviour of the external collaborators during one call.  Mutable
external state (the selected kernel, the set of live execution records) is
captured by its value at each point the orchestrator observes it:
`selectedKernel` at entry, `selectedAfterSourceAction` after the unique
source action ran, `selectedAfterPicker` after the picker command, and
`liveExecutionUris` at filtering time.  `kernelStates` gives the state the
kernel leaves each created record (by cell handle) in when its execute call
settles; absent handles stay `Unconfirmed`. -/
structure Env where
  trustResponse : Bool
  selectedKernel : Option INotebookKernel
  matchingKernels : List INotebookKernel
  sourceActions : List ISourceAction
  selectedAfterSourceAction : Option INotebookKernel
  selectedAfterPicker : Option INotebookKernel
  liveExecutionUris : List String
  kernelExecuteRejects : Bool
  kernelStates : List (Nat × NotebookCellExecutionState)
  kernelCancelRejects : Bool
deriving DecidableEq, Repr

/-- The state the kernel leaves the record with cell handle `h` in when its
execute call settles (`Unconfirmed` when the kernel never touched it). -/
def kernelLeftState (env : Env) (h : Nat) : NotebookCellExecutionState :=
  match env.kernelStates.lookup h with
  | some s => s
  | none => NotebookCellExecutionState.Unconfirmed

/-- Outcome of `executeNotebookCells`: the ordered interaction trace, the
records created during the call with their final states (in creation
order), and whether the returned promise rejected. -/
structure ExecOutcome where
  events : List Event
  createdRecords : List ICellExecution
  rejected : Bool
deriving DecidableEq, Repr

/-- Outcome of the cancellation entry points. -/
structure CancelOutcome where
  events : List Event
  rejected : Bool
deriving DecidableEq, Repr

/-- The kernel returned by `resolveSourceActions` (lines 81–94): when the
matching-kernel query returns no candidates at all and there is exactly one
source action, run it and re-read the selected-or-suggested kernel;
otherwise return `undefined`. -/
def resolveSourceActions (env : Env) : Option INotebookKernel :=
  if env.matchingKernels.length = 0 then
    if env.sourceActions.length = 1 then env.selectedAfterSourceAction
    else none
  else none

/-- The interaction trace of `resolveSourceActions`. -/
def resolveSourceActionsEvents (env : Env) : List Event :=
  if env.matchingKernels.length = 0 then
    if env.sourceActions.length = 1 then
      [Event.getMatchingKernel, Event.getSourceActions, Event.runSourceAction,
        Event.getSelectedOrSuggestedKernel]
    else [Event.getMatchingKernel, Event.getSourceActions]
  else [Event.getMatchingKernel]

/-- The kernel-resolution phase of `executeNotebookCells` (lines 42–53):
the selected-or-suggested kernel if any, else `resolveSourceActions`, else
run the `SELECT_KERNEL_ID` picker command and re-read
selected-or-suggested. -/
def resolveKernelPhase (env : Env) : Option INotebookKernel :=
  match env.selectedKernel with
  | some k => some k
  | none =>
    match resolveSourceActions env with
    | some k => some k
    | none => env.selectedAfterPicker

/-- The interaction trace of the kernel-resolution phase. -/
def resolveKernelPhaseEvents (env : Env) : List Event :=
  Event.getSelectedOrSuggestedKernel ::
    match env.selectedKernel with
    | some _ => []
    | none =>
      resolveSourceActionsEvents env ++
        match resolveSourceActions env with
        | some _ => []
        | none => [Event.executeSelectKernelCommand, Event.getSelectedOrSuggestedKernel]

/-- The record produced by `createCellExecution(kernelId, notebookUri,
handle)`, in state `s` (freshly created records are `Unconfirmed`). -/
def mkExecution (kernel : INotebookKernel) (notebook : INotebookTextModel)
    (h : Nat) (s : NotebookCellExecutionState) : ICellExecution :=
  { kernelId := kernel.id, notebookUri := notebook.uri, cellHandle := h, state := s }

/-- The filtering loop of `executeNotebookCells` (lines 56–66): skip a cell
when its kind is not `Code` or it already has a live execution record, skip
it when its language is not supported by the kernel, keep it otherwise. -/
def eligibleCells (env : Env) (kernel : INotebookKernel) :
    List NotebookCellTextModel → List NotebookCellTextModel
  | [] => []
  | cell :: rest =>
    if cell.cellKind ≠ CellKind.Code ∨ cell.uri ∈ env.liveExecutionUris then
      eligibleCells env kernel rest
    else if cell.language ∉ kernel.supportedLanguages then
      eligibleCells env kernel rest
    else
      cell :: eligibleCells env kernel rest

/-- The trace prefix emitted before any dispatch decision: the trust
request, the kernel-resolution interactions, and the per-cell
`getCellExecution` lookups made by the filtering loop (in input order). -/
def baseEvents (env : Env) (cells : List NotebookCellTextModel) : List Event :=
  Event.requestWorkspaceTrust ::
    (resolveKernelPhaseEvents env ++ cells.map fun c => Event.getCellExecution c.uri)

/-- The dispatch phase of `executeNotebookCells` (lines 67–78), given the
non-empty eligible list: bind the kernel to the notebook, create one
execution record per eligible cell, invoke the kernel's batch execute with
the eligible handles, and — when that call settles successfully — complete
with an empty result every record still `Unconfirmed`.  When the execute
call rejects, the rejection propagates and the reconciliation step does not
run; records keep whatever state the kernel left them in. -/
def dispatchPhase (env : Env) (notebook : INotebookTextModel)
    (kernel : INotebookKernel) (executeCells : List NotebookCellTextModel) :
    ExecOutcome :=
  let preDispatch :=
    Event.selectKernelForNotebook kernel.id notebook.uri ::
      (executeCells.map fun c =>
        Event.createCellExecution kernel.id notebook.uri c.handle) ++
      [Event.executeNotebookCellsRequest notebook.uri
        (executeCells.map fun c => c.handle)]
  let afterKernel : List ICellExecution := executeCells.map fun c =>
    mkExecution kernel notebook c.handle (kernelLeftState env c.handle)
  if env.kernelExecuteRejects then
    { events := preDispatch, createdRecords := afterKernel, rejected := true }
  else
    let unconfirmed := afterKernel.filter fun exe =>
      decide (exe.state = NotebookCellExecutionState.Unconfirmed)
    { events := preDispatch ++ unconfirmed.map fun exe => Event.completeExecution exe.cellHandle,
      createdRecords := afterKernel.map fun exe =>
        if exe.state = NotebookCellExecutionState.Unconfirmed then
          { exe with state := NotebookCellExecutionState.Completed true }
        else exe,
      rejected := false }

/-- `executeNotebookCells(notebook, cells)` (lines 33–79).  The `cells`
iterable is materialised once at entry (`Array.from`, line 34); the `List`
argument is that materialisation.  Request trust and stop silently when
declined; resolve a kernel and stop silently when none; filter to the
eligible subset; when it is non-empty, run the dispatch phase. -/
def executeNotebookCells (env : Env) (notebook : INotebookTextModel)
    (cells : List NotebookCellTextModel) : ExecOutcome :=
  if env.trustResponse = false then
    { events := [Event.requestWorkspaceTrust], createdRecords := [], rejected := false }
  else
    match resolveKernelPhase env with
    | none =>
      { events := Event.requestWorkspaceTrust :: resolveKernelPhaseEvents env,
        createdRecords := [], rejected := false }
    | some kernel =>
      let executeCells := eligibleCells env kernel cells
      if executeCells.length > 0 then
        let d := dispatchPhase env notebook kernel executeCells
        { events := baseEvents env cells ++ d.events,
          createdRecords := d.createdRecords, rejected := d.rejected }
      else
        { events := baseEvents env cells, createdRecords := [], rejected := false }

/-- `cancelNotebookCellHandles(notebook, cells)` (lines 96–104): read the
selected-or-suggested kernel; when present, forward the cancellation with
the materialised handles and await it (a rejection propagates); when
absent, do nothing. -/
def cancelNotebookCellHandles (env : Env) (notebook : INotebookTextModel)
    (cells : List Nat) : CancelOutcome :=
  match env.selectedKernel with
  | some _ =>
    { events := [Event.getSelectedOrSuggestedKernel,
        Event.cancelNotebookCellExecution notebook.uri cells],
      rejected := env.kernelCancelRejects }
  | none => { events := [Event.getSelectedOrSuggestedKernel], rejected := false }

/-- `cancelNotebookCells(notebook, cells)` (lines 106–108): delegate to
`cancelNotebookCellHandles` with the cells' handles.  The source does not
`await` or `return` the inner promise, so the inner call's side effects
occur but its rejection is not propagated: the outer promise always
resolves. -/
def cancelNotebookCells (env : Env) (notebook : INotebookTextModel)
    (cells : List NotebookCellTextModel) : CancelOutcome :=
  let inner := cancelNotebookCellHandles env notebook (cells.map fun c => c.handle)
  { events := inner.events, rejected := false }

/-! ## Concrete fixtures

A small notebook used to instantiate the theorems: a supported code cell, a
markup cell, a code cell in an unsupported language, a code cell with a live
execution record, and a second supported code cell the kernel fails to
confirm. -/

def sampleKernel : INotebookKernel := { id := "k1", supportedLanguages := ["python"] }

def sampleNotebook : INotebookTextModel := { uri := "nb" }

def cellA : NotebookCellTextModel :=
  { handle := 0, uri := "c0", cellKind := CellKind.Code, language := "python" }

def cellB : NotebookCellTextModel :=
  { handle := 1, uri := "c1", cellKind := CellKind.Markup, language := "python" }

def cellC : NotebookCellTextModel :=
  { handle := 2, uri := "c2", cellKind := CellKind.Code, language := "javascript" }

def cellD : NotebookCellTextModel :=
  { handle := 3, uri := "cLive", cellKind := CellKind.Code, language := "python" }

def cellE : NotebookCellTextModel :=
  { handle := 4, uri := "c4", cellKind := CellKind.Code, language := "python" }

/-- An environment with a selected kernel whose execute call succeeds,
confirming only handle 0. -/
def envRun : Env :=
  { trustResponse := true, selectedKernel := some sampleKernel,
    matchingKernels := [sampleKernel], sourceActions := [],
    selectedAfterSourceAction := none, selectedAfterPicker := none,
    liveExecutionUris := ["cLive"], kernelExecuteRejects := false,
    kernelStates := [(0, NotebookCellExecutionState.Confirmed)],
    kernelCancelRejects := false }

/-- An environment whose trust request is declined. -/
def envDeclined : Env := { envRun with trustResponse := false }

/-- An environment with no kernel at all: nothing selected, no matching
candidate, a unique source action whose run selects `sampleKernel`. -/
def envSourceAction : Env :=
  { envRun with
    selectedKernel := none
    matchingKernels := []
    sourceActions := [{ name := "install" }]
    selectedAfterSourceAction := some sampleKernel }

/-- An environment where only the interactive picker yields a kernel. -/
def envPicker : Env :=
  { envRun with
    selectedKernel := none
    selectedAfterPicker := some sampleKernel }

/-- An environment where the kernel's execute call rejects. -/
def envExecReject : Env := { envRun with kernelExecuteRejects := true }

/-- An environment where the kernel's cancel call rejects. -/
def envCancelReject : Env := { envRun with kernelCancelRejects := true }

/-- An environment with no selected kernel and nothing selectable. -/
def envNoKernel : Env :=
  { envRun with selectedKernel := none }

/-! ## Helper lemmas -/

/-- The filtering loop computes exactly the filter by the three eligibility
conditions: kind `Code`, no live execution record, supported language. -/
theorem eligibleCells_eq_filter (env : Env) (k : INotebookKernel)
    (l : List NotebookCellTextModel) :
    eligibleCells env k l = l.filter fun c =>
      decide (c.cellKind = CellKind.Code ∧ c.uri ∉ env.liveExecutionUris ∧
        c.language ∈ k.supportedLanguages) := by
  induction l with
  | nil => rfl
  | cons c rest ih =>
    simp only [eligibleCells, List.filter_cons]
    by_cases h1 : c.cellKind = CellKind.Code
    · by_cases h2 : c.uri ∈ env.liveExecutionUris
      · simp [h1, h2, ih]
      · by_cases h3 : c.language ∈ k.supportedLanguages
        · simp [h1, h2, h3, ih]
        · simp [h1, h2, h3, ih]
    · simp [h1, ih]

/-- Only registry/discovery queries, the source-action run and the picker
command appear in the kernel-resolution trace. -/
theorem mem_resolveKernelPhaseEvents (env : Env) (e : Event)
    (he : e ∈ resolveKernelPhaseEvents env) :
    e = Event.getSelectedOrSuggestedKernel ∨ e = Event.getMatchingKernel ∨
    e = Event.getSourceActions ∨ e = Event.runSourceAction ∨
    e = Event.executeSelectKernelCommand := by
  unfold resolveKernelPhaseEvents at he
  rcases List.mem_cons.mp he with h | h
  · exact Or.inl h
  · cases hsel : env.selectedKernel with
    | some k => rw [hsel] at h; simp at h
    | none =>
      rw [hsel] at h
      rcases List.mem_append.mp h with h | h
      · unfold resolveSourceActionsEvents at h
        split at h
        · split at h <;> (simp at h; try tauto)
        · simp at h; tauto
      · split at h <;> (simp at h; try tauto)

/-- The pre-dispatch trace consists of the trust request, resolution
interactions and execution-record lookups only. -/
theorem mem_baseEvents (env : Env) (cells : List NotebookCellTextModel) (e : Event)
    (he : e ∈ baseEvents env cells) :
    e = Event.requestWorkspaceTrust ∨ e = Event.getSelectedOrSuggestedKernel ∨
    e = Event.getMatchingKernel ∨ e = Event.getSourceActions ∨
    e = Event.runSourceAction ∨ e = Event.executeSelectKernelCommand ∨
    ∃ u, e = Event.getCellExecution u := by
  unfold baseEvents at he
  rcases List.mem_cons.mp he with h | h
  · tauto
  · rcases List.mem_append.mp h with h | h
    · have := mem_resolveKernelPhaseEvents env e h
      tauto
    · rcases List.mem_map.mp h with ⟨c, _, rfl⟩
      tauto

/-- Path lemma: trust declined. -/
theorem executeNotebookCells_of_untrusted (env : Env) (nb : INotebookTextModel)
    (cells : List NotebookCellTextModel) (h : env.trustResponse = false) :
    executeNotebookCells env nb cells =
      { events := [Event.requestWorkspaceTrust], createdRecords := [], rejected := false } := by
  unfold executeNotebookCells
  rw [h]
  simp

/-- Path lemma: trust granted but no kernel resolved. -/
theorem executeNotebookCells_of_noKernel (env : Env) (nb : INotebookTextModel)
    (cells : List NotebookCellTextModel) (htrust : env.trustResponse = true)
    (hk : resolveKernelPhase env = none) :
    executeNotebookCells env nb cells =
      { events := Event.requestWorkspaceTrust :: resolveKernelPhaseEvents env,
        createdRecords := [], rejected := false } := by
  unfold executeNotebookCells
  rw [htrust, hk]
  simp

/-- Path lemma: kernel resolved but no eligible cell. -/
theorem executeNotebookCells_of_emptyEligible (env : Env) (nb : INotebookTextModel)
    (cells : List NotebookCellTextModel) (k : INotebookKernel)
    (htrust : env.trustResponse = true) (hk : resolveKernelPhase env = some k)
    (hempty : eligibleCells env k cells = []) :
    executeNotebookCells env nb cells =
      { events := baseEvents env cells, createdRecords := [], rejected := false } := by
  unfold executeNotebookCells
  rw [htrust, hk]
  simp [hempty]

/-- Path lemma: kernel resolved with a non-empty eligible subset. -/
theorem executeNotebookCells_of_dispatch (env : Env) (nb : INotebookTextModel)
    (cells : List NotebookCellTextModel) (k : INotebookKernel)
    (htrust : env.trustResponse = true) (hk : resolveKernelPhase env = some k)
    (hne : eligibleCells env k cells ≠ []) :
    executeNotebookCells env nb cells =
      { events := baseEvents env cells ++
          (dispatchPhase env nb k (eligibleCells env k cells)).events,
        createdRecords := (dispatchPhase env nb k (eligibleCells env k cells)).createdRecords,
        rejected := (dispatchPhase env nb k (eligibleCells env k cells)).rejected } := by
  unfold executeNotebookCells
  rw [htrust, hk]
  have hlen : (eligibleCells env k cells).length > 0 := List.length_pos.mpr hne
  simp [hlen]

/-! ## Claim theorems -/

/-- C1: for every call to `executeNotebookCells` in which the trust request
returns false, the call terminates with a trace containing nothing beyond
the trust request itself — no kernel-registry query (selected-kernel,
matching-kernel, or source-action lookup), no source-action run, no picker
command, no execution record created, and no kernel operation invoked —
and the returned promise resolves. -/
theorem trust_declined_is_noop (env : Env) (nb : INotebookTextModel)
    (cells : List NotebookCellTextModel) (h : env.trustResponse = false) :
    (executeNotebookCells env nb cells).events = [Event.requestWorkspaceTrust] ∧
    Event.getSelectedOrSuggestedKernel ∉ (executeNotebookCells env nb cells).events ∧
    Event.getMatchingKernel ∉ (executeNotebookCells env nb cells).events ∧
    Event.getSourceActions ∉ (executeNotebookCells env nb cells).events ∧
    Event.runSourceAction ∉ (executeNotebookCells env nb cells).events ∧
    Event.executeSelectKernelCommand ∉ (executeNotebookCells env nb cells).events ∧
    (∀ kid nuri hh,
      Event.createCellExecution kid nuri hh ∉ (executeNotebookCells env nb cells).events) ∧
    (∀ nuri hs,
      Event.executeNotebookCellsRequest nuri hs ∉ (executeNotebookCells env nb cells).events) ∧
    (∀ nuri hs,
      Event.cancelNotebookCellExecution nuri hs ∉ (executeNotebookCells env nb cells).events) ∧
    (executeNotebookCells env nb cells).createdRecords = [] ∧
    (executeNotebookCells env nb cells).rejected = false := by
  rw [executeNotebookCells_of_untrusted env nb cells h]
  simp

/-- Witness for C1 at a concrete declined-trust request. -/
theorem trust_declined_is_noop_witness :
    (executeNotebookCells envDeclined sampleNotebook [cellA, cellB]).events =
      [Event.requestWorkspaceTrust] :=
  (trust_declined_is_noop envDeclined sampleNotebook [cellA, cellB] rfl).1

/-- C2: kernel resolution short-circuits in order: (1) an already
selected-or-suggested kernel is returned as is (no query, no action, no
picker); (2) otherwise, exactly when the matching-kernel query returns zero
candidates and there is exactly one source action, that action is run and
selected-or-suggested re-checked — on success the picker is never invoked;
(3) otherwise the picker command runs and selected-or-suggested is
re-checked; when resolution still yields no kernel the execution request
aborts silently: no rejection, no record, no dispatch. -/
theorem kernel_resolution_policy (env : Env) (nb : INotebookTextModel)
    (cells : List NotebookCellTextModel) :
    (∀ k, env.selectedKernel = some k →
      resolveKernelPhase env = some k ∧
      resolveKernelPhaseEvents env = [Event.getSelectedOrSuggestedKernel]) ∧
    (env.selectedKernel = none → env.matchingKernels = [] →
      env.sourceActions.length = 1 →
      Event.runSourceAction ∈ resolveKernelPhaseEvents env ∧
      (∀ k, env.selectedAfterSourceAction = some k →
        resolveKernelPhase env = some k ∧
        Event.executeSelectKernelCommand ∉ resolveKernelPhaseEvents env) ∧
      (env.selectedAfterSourceAction = none →
        resolveKernelPhase env = env.selectedAfterPicker ∧
        Event.executeSelectKernelCommand ∈ resolveKernelPhaseEvents env)) ∧
    (env.selectedKernel = none →
      (env.matchingKernels ≠ [] ∨ env.sourceActions.length ≠ 1) →
      Event.runSourceAction ∉ resolveKernelPhaseEvents env ∧
      resolveKernelPhase env = env.selectedAfterPicker ∧
      Event.executeSelectKernelCommand ∈ resolveKernelPhaseEvents env) ∧
    (env.trustResponse = true → resolveKernelPhase env = none →
      (executeNotebookCells env nb cells).rejected = false ∧
      (executeNotebookCells env nb cells).createdRecords = [] ∧
      ∀ nuri hs, Event.executeNotebookCellsRequest nuri hs ∉
        (executeNotebookCells env nb cells).events) := by
  refine ⟨?_, ?_, ?_, ?_⟩
  · intro k hsel
    unfold resolveKernelPhase resolveKernelPhaseEvents
    rw [hsel]
    simp
  · intro hsel hmatch hsrc
    have hres : resolveSourceActions env = env.selectedAfterSourceAction := by
      unfold resolveSourceActions
      simp [hmatch, hsrc]
    have hev : resolveSourceActionsEvents env =
        [Event.getMatchingKernel, Event.getSourceActions, Event.runSourceAction,
          Event.getSelectedOrSuggestedKernel] := by
      unfold resolveSourceActionsEvents
      simp [hmatch, hsrc]
    refine ⟨?_, ?_, ?_⟩
    · unfold resolveKernelPhaseEvents
      rw [hsel, hev]
      cases h : resolveSourceActions env <;> simp
    · intro k hk
      constructor
      · unfold resolveKernelPhase
        rw [hsel, hres, hk]
      · unfold resolveKernelPhaseEvents
        rw [hsel, hev, hres, hk]
        simp
    · intro hk
      constructor
      · unfold resolveKernelPhase
        rw [hsel, hres, hk]
      · unfold resolveKernelPhaseEvents
        rw [hsel, hev, hres, hk]
        simp
  · intro hsel hcase
    have hres : resolveSourceActions env = none := by
      unfold resolveSourceActions
      rcases hcase with h | h
      · have hlen : ¬ env.matchingKernels.length = 0 := by
          simpa [List.length_eq_zero] using h
        simp [hlen]
      · by_cases hm : env.matchingKernels.length = 0
        · simp [hm, h]
        · simp [hm]
    have hnorun : Event.runSourceAction ∉ resolveSourceActionsEvents env := by
      unfold resolveSourceActionsEvents
      rcases hcase with h | h
      · have hlen : ¬ env.matchingKernels.length = 0 := by
          simpa [List.length_eq_zero] using h
        simp [hlen]
      · by_cases hm : env.matchingKernels.length = 0
        · simp [hm, h]
        · simp [hm]
    refine ⟨?_, ?_, ?_⟩
    · unfold resolveKernelPhaseEvents
      rw [hsel, hres]
      simpa using hnorun
    · unfold resolveKernelPhase
      rw [hsel, hres]
    · unfold resolveKernelPhaseEvents
      rw [hsel, hres]
      simp
  · intro htrust hnone
    rw [executeNotebookCells_of_noKernel env nb cells htrust hnone]
    refine ⟨rfl, rfl, ?_⟩
    intro nuri hs hmem
    rcases List.mem_cons.mp hmem with h | h
    · exact absurd h (by simp)
    · rcases mem_resolveKernelPhaseEvents env _ h with h | h | h | h | h <;> simp at h

/-- Witness for C2: with no kernel selected, zero matching kernels and a
unique source action that selects `sampleKernel`, resolution returns
`sampleKernel` without invoking the picker. -/
theorem kernel_resolution_policy_witness :
    resolveKernelPhase envSourceAction = some sampleKernel ∧
    Event.executeSelectKernelCommand ∉ resolveKernelPhaseEvents envSourceAction ∧
    Event.runSourceAction ∈ resolveKernelPhaseEvents envSourceAction := by
  have h := kernel_resolution_policy envSourceAction sampleNotebook []
  have h2 := h.2.1 rfl rfl rfl
  exact ⟨(h2.2.1 sampleKernel rfl).1, (h2.2.1 sampleKernel rfl).2, h2.1⟩

/-- The dispatch-phase trace on the rejecting path: kernel binding, record
creations, then the batch-execute call; no reconciliation. -/
theorem dispatchPhase_of_reject (env : Env) (nb : INotebookTextModel)
    (k : INotebookKernel) (ec : List NotebookCellTextModel)
    (h : env.kernelExecuteRejects = true) :
    dispatchPhase env nb k ec =
      { events := Event.selectKernelForNotebook k.id nb.uri ::
          (ec.map fun c => Event.createCellExecution k.id nb.uri c.handle) ++
          [Event.executeNotebookCellsRequest nb.uri (ec.map fun c => c.handle)],
        createdRecords := ec.map fun c =>
          mkExecution k nb c.handle (kernelLeftState env c.handle),
        rejected := true } := by
  unfold dispatchPhase
  simp [h]

/-- The dispatch-phase trace on the successful path: kernel binding, record
creations, the batch-execute call, then one completion per record the
kernel left `Unconfirmed`. -/
theorem dispatchPhase_events_success (env : Env) (nb : INotebookTextModel)
    (k : INotebookKernel) (ec : List NotebookCellTextModel)
    (h : env.kernelExecuteRejects = false) :
    (dispatchPhase env nb k ec).events =
      Event.selectKernelForNotebook k.id nb.uri ::
        (ec.map fun c => Event.createCellExecution k.id nb.uri c.handle) ++
        Event.executeNotebookCellsRequest nb.uri (ec.map fun c => c.handle) ::
        (((ec.map fun c =>
            mkExecution k nb c.handle (kernelLeftState env c.handle)).filter
            fun exe =>
              decide (exe.state = NotebookCellExecutionState.Unconfirmed)).map
          fun exe => Event.completeExecution exe.cellHandle) := by
  unfold dispatchPhase
  simp [h]

/-- The record list on the successful path: every record the kernel left
`Unconfirmed` is completed with the empty result, the others keep the state
the kernel left them in. -/
theorem dispatchPhase_records_success (env : Env) (nb : INotebookTextModel)
    (k : INotebookKernel) (ec : List NotebookCellTextModel)
    (h : env.kernelExecuteRejects = false) :
    (dispatchPhase env nb k ec).createdRecords =
      ec.map fun c =>
        if kernelLeftState env c.handle = NotebookCellExecutionState.Unconfirmed then
          mkExecution k nb c.handle (NotebookCellExecutionState.Completed true)
        else
          mkExecution k nb c.handle (kernelLeftState env c.handle) := by
  unfold dispatchPhase
  simp only [h, Bool.false_eq_true, if_false, List.map_map]
  refine List.map_congr_left fun c _ => ?_
  by_cases hc : kernelLeftState env c.handle = NotebookCellExecutionState.Unconfirmed <;>
    simp [Function.comp, mkExecution, hc]

/-- Every event of the dispatch phase is the kernel binding, one of the
record creations, the batch-execute call, or a completion. -/
theorem mem_dispatchPhase_events (env : Env) (nb : INotebookTextModel)
    (k : INotebookKernel) (ec : List NotebookCellTextModel) (e : Event)
    (he : e ∈ (dispatchPhase env nb k ec).events) :
    e = Event.selectKernelForNotebook k.id nb.uri ∨
    (∃ c ∈ ec, e = Event.createCellExecution k.id nb.uri c.handle) ∨
    e = Event.executeNotebookCellsRequest nb.uri (ec.map fun c => c.handle) ∨
    (∃ hh, e = Event.completeExecution hh) := by
  by_cases hrej : env.kernelExecuteRejects = true
  · rw [dispatchPhase_of_reject env nb k ec hrej] at he
    rcases List.mem_append.mp he with h | h
    · rcases List.mem_cons.mp h with h | h
      · exact Or.inl h
      · rcases List.mem_map.mp h with ⟨c, hc, hceq⟩
        exact Or.inr (Or.inl ⟨c, hc, hceq.symm⟩)
    · rw [List.mem_singleton] at h
      exact Or.inr (Or.inr (Or.inl h))
  · rw [Bool.not_eq_true] at hrej
    rw [dispatchPhase_events_success env nb k ec hrej] at he
    rcases List.mem_append.mp he with h | h
    · rcases List.mem_cons.mp h with h | h
      · exact Or.inl h
      · rcases List.mem_map.mp h with ⟨c, hc, hceq⟩
        exact Or.inr (Or.inl ⟨c, hc, hceq.symm⟩)
    · rcases List.mem_cons.mp h with h | h
      · exact Or.inr (Or.inr (Or.inl h))
      · rcases List.mem_map.mp h with ⟨exe, hexe, hceq⟩
        exact Or.inr (Or.inr (Or.inr ⟨exe.cellHandle, hceq.symm⟩))

/-- Any batch-execute event in the trace of `executeNotebookCells` carries
the notebook's uri and exactly the eligible handles. -/
theorem dispatch_event_handles (env : Env) (nb : INotebookTextModel)
    (cells : List NotebookCellTextModel) (k : INotebookKernel)
    (htrust : env.trustResponse = true) (hk : resolveKernelPhase env = some k) :
    ∀ nuri hs, Event.executeNotebookCellsRequest nuri hs ∈
        (executeNotebookCells env nb cells).events →
      nuri = nb.uri ∧ hs = (eligibleCells env k cells).map fun c => c.handle := by
  intro nuri hs hmem
  by_cases hne : eligibleCells env k cells = []
  · rw [executeNotebookCells_of_emptyEligible env nb cells k htrust hk hne] at hmem
    rcases mem_baseEvents env cells _ hmem with h | h | h | h | h | h | ⟨u, h⟩ <;>
      simp at h
  · rw [executeNotebookCells_of_dispatch env nb cells k htrust hk hne] at hmem
    rcases List.mem_append.mp hmem with h | h
    · rcases mem_baseEvents env cells _ h with h | h | h | h | h | h | ⟨u, h⟩ <;>
        simp at h
    · rcases mem_dispatchPhase_events env nb k _ _ h with h1 | ⟨c, hc, h1⟩ | h1 | ⟨hh, h1⟩
      · exact absurd h1 (by simp)
      · exact absurd h1 (by simp)
      · injection h1 with h2 h3
        exact ⟨h2, h3⟩
      · exact absurd h1 (by simp)

/-- C3: for every call that reaches dispatch, the handles passed to the
kernel's batch-execute operation are exactly the requested cells whose kind
is `Code`, that have no live execution record at filtering time, and whose
language the resolved kernel supports; with distinct handles, no requested
cell failing one of the three conditions appears among the dispatched
handles. -/
theorem dispatched_handles_are_exactly_eligible (env : Env)
    (nb : INotebookTextModel) (cells : List NotebookCellTextModel)
    (k : INotebookKernel) (htrust : env.trustResponse = true)
    (hk : resolveKernelPhase env = some k) :
    (∀ nuri hs, Event.executeNotebookCellsRequest nuri hs ∈
        (executeNotebookCells env nb cells).events →
      nuri = nb.uri ∧
      hs = (cells.filter fun c =>
          decide (c.cellKind = CellKind.Code ∧ c.uri ∉ env.liveExecutionUris ∧
            c.language ∈ k.supportedLanguages)).map fun c => c.handle) ∧
    ((cells.map fun c => c.handle).Nodup →
      ∀ c ∈ cells,
        ¬ (c.cellKind = CellKind.Code ∧ c.uri ∉ env.liveExecutionUris ∧
            c.language ∈ k.supportedLanguages) →
        ∀ nuri hs, Event.executeNotebookCellsRequest nuri hs ∈
            (executeNotebookCells env nb cells).events →
          c.handle ∉ hs) := by
  have hmain : ∀ nuri hs, Event.executeNotebookCellsRequest nuri hs ∈
      (executeNotebookCells env nb cells).events →
      nuri = nb.uri ∧
      hs = (cells.filter fun c =>
          decide (c.cellKind = CellKind.Code ∧ c.uri ∉ env.liveExecutionUris ∧
            c.language ∈ k.supportedLanguages)).map fun c => c.handle := by
    intro nuri hs hmem
    have h := dispatch_event_handles env nb cells k htrust hk nuri hs hmem
    rw [eligibleCells_eq_filter] at h
    exact h
  refine ⟨hmain, ?_⟩
  intro hnodup c hc hnot nuri hs hmem hin
  rw [(hmain nuri hs hmem).2] at hin
  rcases List.mem_map.mp hin with ⟨c', hc', hh⟩
  obtain ⟨hcmem, hP⟩ := List.mem_filter.mp hc'
  rw [decide_eq_true_eq] at hP
  have hceq : c = c' :=
    List.inj_on_of_nodup_map hnodup hc hcmem hh.symm
  exact hnot (hceq ▸ hP)

/-- Witness for C3: in the concrete run, the markup cell's handle is not
dispatched. -/
theorem dispatched_handles_are_exactly_eligible_witness :
    cellB.handle ∉ [cellA.handle, cellE.handle] := by
  have h := (dispatched_handles_are_exactly_eligible envRun sampleNotebook
    [cellA, cellB, cellC, cellD, cellE] sampleKernel rfl rfl).2
  exact fun hin => h (by decide) cellB (by decide) (by decide)
    sampleNotebook.uri [cellA.handle, cellE.handle] (by decide) hin

/-- C10: the input iterable is materialised once at entry (the embedding's
list argument is that single materialisation, `Array.from` at line 34) and
the dispatched handle list is the input sequence restricted to the eligible
cells, in input order — in particular a sublist of the input handles. -/
theorem dispatched_handles_preserve_input_order (env : Env)
    (nb : INotebookTextModel) (cells : List NotebookCellTextModel)
    (k : INotebookKernel) (htrust : env.trustResponse = true)
    (hk : resolveKernelPhase env = some k) :
    ∀ nuri hs, Event.executeNotebookCellsRequest nuri hs ∈
        (executeNotebookCells env nb cells).events →
      hs = (cells.filter fun c =>
          decide (c.cellKind = CellKind.Code ∧ c.uri ∉ env.liveExecutionUris ∧
            c.language ∈ k.supportedLanguages)).map (fun c => c.handle) ∧
      hs.Sublist (cells.map fun c => c.handle) := by
  intro nuri hs hmem
  have h := dispatch_event_handles env nb cells k htrust hk nuri hs hmem
  rw [eligibleCells_eq_filter] at h
  refine ⟨h.2, ?_⟩
  rw [h.2]
  exact List.Sublist.map _ (List.filter_sublist _)

/-- Witness for C10 at the concrete run: the dispatched handles `[0, 4]`
form an order-preserving restriction of the input handles
`[0, 1, 2, 3, 4]`. -/
theorem dispatched_handles_preserve_input_order_witness :
    [cellA.handle, cellE.handle].Sublist
      ([cellA, cellB, cellC, cellD, cellE].map fun c => c.handle) :=
  (dispatched_handles_preserve_input_order envRun sampleNotebook
    [cellA, cellB, cellC, cellD, cellE] sampleKernel rfl rfl
    sampleNotebook.uri [cellA.handle, cellE.handle] (by decide)).2

/-- C4: when the eligible subset after filtering is empty, the call mutates
nothing: the kernel's execute operation is never invoked, no execution
record is created, the kernel is not bound to the notebook as selected, and
the call resolves. -/
theorem empty_eligible_no_mutation (env : Env) (nb : INotebookTextModel)
    (cells : List NotebookCellTextModel) (k : INotebookKernel)
    (htrust : env.trustResponse = true) (hk : resolveKernelPhase env = some k)
    (hempty : eligibleCells env k cells = []) :
    (executeNotebookCells env nb cells).createdRecords = [] ∧
    (executeNotebookCells env nb cells).rejected = false ∧
    (∀ nuri hs, Event.executeNotebookCellsRequest nuri hs ∉
      (executeNotebookCells env nb cells).events) ∧
    (∀ kid nuri hh, Event.createCellExecution kid nuri hh ∉
      (executeNotebookCells env nb cells).events) ∧
    (∀ kid nuri, Event.selectKernelForNotebook kid nuri ∉
      (executeNotebookCells env nb cells).events) ∧
    (∀ hh, Event.completeExecution hh ∉
      (executeNotebookCells env nb cells).events) := by
  rw [executeNotebookCells_of_emptyEligible env nb cells k htrust hk hempty]
  refine ⟨rfl, rfl, ?_, ?_, ?_, ?_⟩
  · intro nuri hs hmem
    rcases mem_baseEvents env cells _ hmem with h | h | h | h | h | h | ⟨u, h⟩ <;>
      simp at h
  · intro kid nuri hh hmem
    rcases mem_baseEvents env cells _ hmem with h | h | h | h | h | h | ⟨u, h⟩ <;>
      simp at h
  · intro kid nuri hmem
    rcases mem_baseEvents env cells _ hmem with h | h | h | h | h | h | ⟨u, h⟩ <;>
      simp at h
  · intro hh hmem
    rcases mem_baseEvents env cells _ hmem with h | h | h | h | h | h | ⟨u, h⟩ <;>
      simp at h

/-- Witness for C4: requesting only the markup cell, the unsupported-language
cell and the already-running cell creates no record. -/
theorem empty_eligible_no_mutation_witness :
    (executeNotebookCells envRun sampleNotebook [cellB, cellC, cellD]).createdRecords
      = [] :=
  (empty_eligible_no_mutation envRun sampleNotebook [cellB, cellC, cellD]
    sampleKernel rfl rfl (by decide)).1

/-- C5: on a successful call with a non-empty eligible subset, one record
per eligible cell — all with the resolved kernel's id — is created before
the batch-execute event, and all reconciliation completions occur after it;
every dispatched handle the kernel left `Unconfirmed` is completed after
the execute call settles, whatever the kernel confirmed. -/
theorem records_created_before_dispatch (env : Env) (nb : INotebookTextModel)
    (cells : List NotebookCellTextModel) (k : INotebookKernel)
    (htrust : env.trustResponse = true) (hk : resolveKernelPhase env = some k)
    (hne : eligibleCells env k cells ≠ [])
    (hnorej : env.kernelExecuteRejects = false) :
    ∃ pre post,
      (executeNotebookCells env nb cells).events =
        pre ++ Event.executeNotebookCellsRequest nb.uri
          ((eligibleCells env k cells).map fun c => c.handle) :: post ∧
      (∀ c ∈ eligibleCells env k cells,
        Event.createCellExecution k.id nb.uri c.handle ∈ pre) ∧
      (∀ kid nuri hh, Event.createCellExecution kid nuri hh ∉ post) ∧
      (∀ hh, Event.completeExecution hh ∉ pre) ∧
      (∀ hh, kernelLeftState env hh = NotebookCellExecutionState.Unconfirmed →
        hh ∈ (eligibleCells env k cells).map (fun c => c.handle) →
        Event.completeExecution hh ∈ post) ∧
      ((executeNotebookCells env nb cells).createdRecords.map fun r => r.cellHandle) =
        ((eligibleCells env k cells).map fun c => c.handle) ∧
      (∀ r ∈ (executeNotebookCells env nb cells).createdRecords,
        r.kernelId = k.id) := by
  rw [executeNotebookCells_of_dispatch env nb cells k htrust hk hne]
  dsimp only
  rw [dispatchPhase_events_success env nb k _ hnorej,
    dispatchPhase_records_success env nb k _ hnorej]
  refine ⟨baseEvents env cells ++ Event.selectKernelForNotebook k.id nb.uri ::
      ((eligibleCells env k cells).map fun c =>
        Event.createCellExecution k.id nb.uri c.handle),
    (((eligibleCells env k cells).map fun c =>
        mkExecution k nb c.handle (kernelLeftState env c.handle)).filter
      fun exe =>
        decide (exe.state = NotebookCellExecutionState.Unconfirmed)).map
      (fun exe => Event.completeExecution exe.cellHandle),
    ?_, ?_, ?_, ?_, ?_, ?_, ?_⟩
  · simp
  · intro c hc
    exact List.mem_append_right _
      (List.mem_cons_of_mem _ (List.mem_map_of_mem _ hc))
  · intro kid nuri hh hmem
    rcases List.mem_map.mp hmem with ⟨exe, _, heq⟩
    exact Event.noConfusion heq
  · intro hh hmem
    rcases List.mem_append.mp hmem with h | h
    · rcases mem_baseEvents env cells _ h with h | h | h | h | h | h | ⟨u, h⟩ <;>
        simp at h
    · rcases List.mem_cons.mp h with h | h
      · simp at h
      · rcases List.mem_map.mp h with ⟨c, _, heq⟩
        exact Event.noConfusion heq
  · intro hh hU hmem
    rcases List.mem_map.mp hmem with ⟨c, hc, hch⟩
    have hfil : mkExecution k nb c.handle (kernelLeftState env c.handle) ∈
        ((eligibleCells env k cells).map fun c =>
          mkExecution k nb c.handle (kernelLeftState env c.handle)).filter
          (fun exe =>
            decide (exe.state = NotebookCellExecutionState.Unconfirmed)) := by
      rw [List.mem_filter]
      refine ⟨List.mem_map_of_mem _ hc, ?_⟩
      rw [decide_eq_true_eq]
      show kernelLeftState env c.handle = NotebookCellExecutionState.Unconfirmed
      rw [hch]
      exact hU
    have hpost := List.mem_map_of_mem
      (fun exe => Event.completeExecution exe.cellHandle) hfil
    simpa [mkExecution, hch] using hpost
  · rw [List.map_map]
    refine List.map_congr_left fun c _ => ?_
    by_cases hc : kernelLeftState env c.handle =
        NotebookCellExecutionState.Unconfirmed <;>
      simp [Function.comp, mkExecution, hc]
  · intro r hr
    rcases List.mem_map.mp hr with ⟨c, _, rfl⟩
    by_cases hc : kernelLeftState env c.handle =
        NotebookCellExecutionState.Unconfirmed <;>
      simp [mkExecution, hc]

/-- Witness for C5: in the concrete run, exactly the two eligible handles
get a record, in input order. -/
theorem records_created_before_dispatch_witness :
    ((executeNotebookCells envRun sampleNotebook
      [cellA, cellB, cellC, cellD, cellE]).createdRecords.map
        fun r => r.cellHandle) = [0, 4] := by
  obtain ⟨pre, post, h⟩ := records_created_before_dispatch envRun sampleNotebook
    [cellA, cellB, cellC, cellD, cellE] sampleKernel rfl rfl (by decide) rfl
  rw [h.2.2.2.2.2.1]
  decide

/-- C6: after a successful `executeNotebookCells` call, every record created
during the call is terminal-or-confirmed: a record the kernel left
`Unconfirmed` when the execute call returned is force-completed with the
empty result, and a record the kernel confirmed or completed keeps exactly
the state the kernel left it in. -/
theorem records_reconciled_after_completion (env : Env) (nb : INotebookTextModel)
    (cells : List NotebookCellTextModel)
    (hnorej : env.kernelExecuteRejects = false) :
    ∀ r ∈ (executeNotebookCells env nb cells).createdRecords,
      r.state ≠ NotebookCellExecutionState.Unconfirmed ∧
      (kernelLeftState env r.cellHandle = NotebookCellExecutionState.Unconfirmed →
        r.state = NotebookCellExecutionState.Completed true) ∧
      (kernelLeftState env r.cellHandle ≠ NotebookCellExecutionState.Unconfirmed →
        r.state = kernelLeftState env r.cellHandle) := by
  intro r hr
  by_cases htrust : env.trustResponse = true
  · cases hk : resolveKernelPhase env with
    | none =>
      rw [executeNotebookCells_of_noKernel env nb cells htrust hk] at hr
      simp at hr
    | some k =>
      by_cases hne : eligibleCells env k cells = []
      · rw [executeNotebookCells_of_emptyEligible env nb cells k htrust hk hne] at hr
        simp at hr
      · rw [executeNotebookCells_of_dispatch env nb cells k htrust hk hne] at hr
        dsimp only at hr
        rw [dispatchPhase_records_success env nb k _ hnorej] at hr
        rcases List.mem_map.mp hr with ⟨c, _, rfl⟩
        by_cases hU : kernelLeftState env c.handle =
            NotebookCellExecutionState.Unconfirmed <;>
          simp [mkExecution, hU]
  · rw [Bool.not_eq_true] at htrust
    rw [executeNotebookCells_of_untrusted env nb cells htrust] at hr
    simp at hr

/-- Witness for C6: the record for the handle the kernel never confirmed is
force-completed with the empty result. -/
theorem records_reconciled_after_completion_witness :
    (mkExecution sampleKernel sampleNotebook 4
      (NotebookCellExecutionState.Completed true)).state ≠
      NotebookCellExecutionState.Unconfirmed := by
  have h := records_reconciled_after_completion envRun sampleNotebook
    [cellA, cellB, cellC, cellD, cellE] rfl
    (mkExecution sampleKernel sampleNotebook 4
      (NotebookCellExecutionState.Completed true)) (by decide)
  exact h.1

/-- C9: if the kernel's batch-execute operation rejects, the failure
propagates to the caller, the force-complete reconciliation step is not
applied, and every record the kernel did not confirm remains
`Unconfirmed`. -/
theorem execute_rejection_propagates (env : Env) (nb : INotebookTextModel)
    (cells : List NotebookCellTextModel) (k : INotebookKernel)
    (htrust : env.trustResponse = true) (hk : resolveKernelPhase env = some k)
    (hne : eligibleCells env k cells ≠ [])
    (hrej : env.kernelExecuteRejects = true) :
    (executeNotebookCells env nb cells).rejected = true ∧
    (∀ hh, Event.completeExecution hh ∉
      (executeNotebookCells env nb cells).events) ∧
    (∀ r ∈ (executeNotebookCells env nb cells).createdRecords,
      kernelLeftState env r.cellHandle = NotebookCellExecutionState.Unconfirmed →
      r.state = NotebookCellExecutionState.Unconfirmed) := by
  rw [executeNotebookCells_of_dispatch env nb cells k htrust hk hne]
  dsimp only
  rw [dispatchPhase_of_reject env nb k _ hrej]
  refine ⟨rfl, ?_, ?_⟩
  · intro hh hmem
    rcases List.mem_append.mp hmem with h | h
    · rcases mem_baseEvents env cells _ h with h | h | h | h | h | h | ⟨u, h⟩ <;>
        simp at h
    · rcases List.mem_append.mp h with h | h
      · rcases List.mem_cons.mp h with h | h
        · simp at h
        · rcases List.mem_map.mp h with ⟨c, _, heq⟩
          exact Event.noConfusion heq
      · rw [List.mem_singleton] at h
        simp at h
  · intro r hr hU
    rcases List.mem_map.mp hr with ⟨c, hc, rfl⟩
    simpa [mkExecution] using hU

/-- Witness for C9: with a rejecting kernel, the concrete call rejects. -/
theorem execute_rejection_propagates_witness :
    (executeNotebookCells envExecReject sampleNotebook [cellA, cellE]).rejected
      = true :=
  (execute_rejection_propagates envExecReject sampleNotebook [cellA, cellE]
    sampleKernel rfl rfl (by decide) rfl).1

/-- C7: cancellation consults only the currently selected-or-suggested
kernel — its trace never contains a trust request, a matching-kernel query,
a source-action lookup or run, or the picker command — and with no kernel
selected both entry points are no-ops that resolve without error and
without any further interaction. -/
theorem cancellation_consults_only_selected (env : Env)
    (nb : INotebookTextModel) (hs : List Nat)
    (cells : List NotebookCellTextModel) :
    (∀ e ∈ (cancelNotebookCellHandles env nb hs).events,
      e = Event.getSelectedOrSuggestedKernel ∨
      e = Event.cancelNotebookCellExecution nb.uri hs) ∧
    (∀ e ∈ (cancelNotebookCells env nb cells).events,
      e = Event.getSelectedOrSuggestedKernel ∨
      e = Event.cancelNotebookCellExecution nb.uri (cells.map fun c => c.handle)) ∧
    (env.selectedKernel = none →
      cancelNotebookCellHandles env nb hs =
        { events := [Event.getSelectedOrSuggestedKernel], rejected := false } ∧
      cancelNotebookCells env nb cells =
        { events := [Event.getSelectedOrSuggestedKernel], rejected := false }) := by
  refine ⟨?_, ?_, ?_⟩
  · intro e he
    unfold cancelNotebookCellHandles at he
    cases hsel : env.selectedKernel <;> rw [hsel] at he <;> (simp at he; tauto)
  · intro e he
    unfold cancelNotebookCells cancelNotebookCellHandles at he
    cases hsel : env.selectedKernel <;> rw [hsel] at he <;> (simp at he; tauto)
  · intro hnone
    unfold cancelNotebookCells cancelNotebookCellHandles
    rw [hnone]
    exact ⟨rfl, rfl⟩

/-- Witness for C7: with no selected kernel, cancellation is a no-op. -/
theorem cancellation_consults_only_selected_witness :
    cancelNotebookCellHandles envNoKernel sampleNotebook [0, 1] =
      { events := [Event.getSelectedOrSuggestedKernel], rejected := false } :=
  ((cancellation_consults_only_selected envNoKernel sampleNotebook
    [0, 1] []).2.2 rfl).1

/-- C8 counterexample: the claim that a kernel-cancel rejection propagates
to the caller of both entry points is false for `cancelNotebookCells`: with
a selected kernel whose cancel operation rejects, the inner
`cancelNotebookCellHandles` rejects but `cancelNotebookCells` — which does
not await it — resolves successfully. -/
theorem cancel_rejection_not_propagated_counterexample :
    envCancelReject.selectedKernel = some sampleKernel ∧
    envCancelReject.kernelCancelRejects = true ∧
    (cancelNotebookCellHandles envCancelReject sampleNotebook [0]).rejected = true ∧
    (cancelNotebookCells envCancelReject sampleNotebook [cellA]).rejected = false := by
  decide

/-- C8 (amended): if the kernel's cancel operation rejects, the rejection
propagates to the caller of `cancelNotebookCellHandles`, which issues
exactly one cancel request and does not retry; `cancelNotebookCells` does
not await the inner call, so the single cancel request is still issued but
its own promise resolves successfully and the rejection is not propagated
to its caller. -/
theorem cancel_rejection_propagation (env : Env) (nb : INotebookTextModel)
    (hs : List Nat) (cells : List NotebookCellTextModel) (k : INotebookKernel)
    (hk : env.selectedKernel = some k) (hrej : env.kernelCancelRejects = true) :
    cancelNotebookCellHandles env nb hs =
      { events := [Event.getSelectedOrSuggestedKernel,
          Event.cancelNotebookCellExecution nb.uri hs], rejected := true } ∧
    cancelNotebookCells env nb cells =
      { events := [Event.getSelectedOrSuggestedKernel,
          Event.cancelNotebookCellExecution nb.uri (cells.map fun c => c.handle)],
        rejected := false } := by
  unfold cancelNotebookCells cancelNotebookCellHandles
  rw [hk, hrej]
  exact ⟨rfl, rfl⟩

/-- Witness for C8 (amended) at a concrete rejecting cancel. -/
theorem cancel_rejection_propagation_witness :
    (cancelNotebookCellHandles envCancelReject sampleNotebook [0, 1]).rejected
      = true := by
  have h := cancel_rejection_propagation envCancelReject sampleNotebook
    [0, 1] [] sampleKernel rfl rfl
  rw [h.1]
